import Mathlib

/-!
Shallow embedding of the docx-translator-app repository (src/app.py and
src/user_tracker.py).  Pure string manipulation is translated directly from
the Python source; the remote translation backends (the Google Translate
client and the OpenAI chat client) and the network are modelled as oracles
supplied through an environment, and Streamlit UI effects (progress updates,
warnings) are recorded as data in the results.  Strings are Lean strings,
that is lists of characters.
-/

/-- Python whitespace for str.strip (the ASCII whitespace characters:
space, tab, newline, carriage return, vertical tab, form feed). -/
def isPySpace (c : Char) : Bool :=
  c == ' ' || c == '\t' || c == '\n' || c == '\r' ||
    c == Char.ofNat 11 || c == Char.ofNat 12

/-- Python str.strip on a character list: drop leading and trailing whitespace. -/
def pyStripL (l : List Char) : List Char :=
  ((l.dropWhile isPySpace).reverse.dropWhile isPySpace).reverse

/-- Python str.strip. -/
def pyStrip (s : String) : String := ⟨pyStripL s.data⟩

/-- Python truthiness of an optional string: None and the empty string are falsy. -/
def pyTruthy : Option String → Bool
  | none => false
  | some s => !s.data.isEmpty

/-- Python str.lower, restricted to the ASCII case mapping. -/
def lowerL (s : String) : List Char := s.data.map Char.toLower

/-- Python substring test (the `in` operator on strings), on character lists. -/
def hasSub (p : List Char) : List Char → Bool
  | [] => p.isEmpty
  | c :: cs => p.isPrefixOf (c :: cs) || hasSub p cs

/-!
Link detector: is_url_or_link (src/app.py lines 14-38).  The six regular
expressions are searched with re.IGNORECASE; each of the five literal-prefix
patterns (https?://, www., ftp://, mailto:, file://, each followed by one or
more non-whitespace characters) is embedded as a direct scan.  The bare
domain pattern [a-zA-Z0-9.-]+\.[a-zA-Z]\x7b2,\x7d has a match somewhere in the
text exactly when some four-character window consists of a domain character,
a dot, and two letters (take the last character of the one-or-more group, the
dot, and the first two letters of the trailing group), so re.search on it is
embedded as that window scan.  The indicator loop (lines 31-36) is a plain
substring test on the lowercased text.
-/

/-- Case-insensitive match of a literal pattern at the head of a list,
returning the remaining characters on success. -/
def litMatch : List Char → List Char → Option (List Char)
  | [], l => some l
  | _ :: _, [] => none
  | p :: ps, c :: cs => if c.toLower = p.toLower then litMatch ps cs else none

/-- True when the list starts with a non-whitespace character. -/
def nsHead : List Char → Bool
  | [] => false
  | c :: _ => !isPySpace c

/-- Match of a literal pattern followed by at least one non-whitespace
character, at the head of the list. -/
def litThenNS (pat l : List Char) : Bool :=
  match litMatch pat l with
  | some rest => nsHead rest
  | none => false

/-- re.search for a literal pattern followed by one or more non-whitespace
characters, anywhere in the list. -/
def searchLitNS (pat : List Char) : List Char → Bool
  | [] => false
  | c :: cs => litThenNS pat (c :: cs) || searchLitNS pat cs

/-- The character class [a-zA-Z0-9.-] of the bare-domain pattern. -/
def isDomChar (c : Char) : Bool := c.isAlphanum || c == '.' || c == '-'

/-- re.search for the bare-domain pattern: some window of a domain character,
a dot, and two letters. -/
def searchDomain : List Char → Bool
  | c0 :: c1 :: c2 :: c3 :: rest =>
    (isDomChar c0 && c1 == '.' && c2.isAlpha && c3.isAlpha) ||
      searchDomain (c1 :: c2 :: c3 :: rest)
  | _ => false

/-- The indicator loop of is_url_or_link (src/app.py lines 31-36): substring
tests on the lowercased text. -/
def indicatorHit (lower : List Char) : Bool :=
  hasSub "http://".data lower || hasSub "https://".data lower ||
    hasSub "www.".data lower || hasSub "mailto:".data lower ||
    hasSub "ftp://".data lower || hasSub "file://".data lower

/-- is_url_or_link (src/app.py lines 14-38). -/
def is_url_or_link (text : String) : Bool :=
  searchLitNS "http://".data text.data || searchLitNS "https://".data text.data ||
    searchLitNS "www.".data text.data || searchDomain text.data ||
    searchLitNS "ftp://".data text.data || searchLitNS "mailto:".data text.data ||
    searchLitNS "file://".data text.data || indicatorHit (lowerL text)

/-!
Backends.  A backend invocation yields an outcome (the translated text or the
message of the raised exception) together with the number of network calls it
performed.
-/

/-- Result of one backend invocation: the Python return value or the message
of the raised exception, and the number of network calls performed. -/
structure BackendCall where
  outcome : Except String String
  net : Nat

/-- Abstract failure modes of the OpenAI chat-completion client call, as
caught by translate_with_openai (src/app.py lines 180-187):
openai.AuthenticationError, openai.RateLimitError, openai.APIError, and any
other exception. -/
inductive OpenAIFailure
  | auth
  | rateLimit
  | api (msg : String)
  | other (msg : String)

/-- The exception messages raised by the handlers at src/app.py lines 180-187. -/
def openaiErrMsg : OpenAIFailure → String
  | .auth => "Invalid API key or authentication failed"
  | .rateLimit => "Rate limit exceeded. Please wait a moment and try again."
  | .api m => "OpenAI API error: " ++ m
  | .other m => "OpenAI translation error: " ++ m

/-- Truncation of long inputs before an OpenAI request (src/app.py lines
71-72 and 154-155). -/
def pyTruncate (text : String) : String :=
  if text.length > 3000 then ⟨text.data.take 3000 ++ "...".data⟩ else text

/-- translate_with_google (src/app.py lines 190-197).  The GoogleTranslator
client call is abstracted to its outcome; any exception is re-raised with the
wrapping prefix of line 197.  One network call is made. -/
def translate_with_google (text src dest : String) (res : Except String String) :
    BackendCall :=
  match res with
  | .ok t => ⟨.ok t, 1⟩
  | .error e => ⟨.error ("Google translation error: " ++ e), 1⟩

/-- translate_with_openai (src/app.py lines 120-187).  The key is stripped and
its prefix checked before any client call; a malformed key raises locally
(line 128), which the generic handler at lines 186-187 re-wraps, with no
network call made.  Otherwise the chat-completion client call is abstracted
to its outcome: on success the first choice text is stripped and the
(possibly truncated) input is returned when it is empty (lines 170-171); the
raised client errors are mapped by the handlers at lines 180-187.  The
library-compatibility fallback to the direct HTTP variant (lines 173-178) is
absorbed into the oracle. -/
def translate_with_openai (text src dest key : String)
    (net : Except OpenAIFailure String) : BackendCall :=
  if "sk-".data.isPrefixOf (pyStrip key).data then
    match net with
    | .ok content =>
      let r := pyStrip content
      ⟨.ok (if r.data.isEmpty then pyTruncate text else r), 1⟩
    | .error f => ⟨.error (openaiErrMsg f), 1⟩
  else ⟨.error "OpenAI translation error: Invalid API key format", 0⟩

/-- An HTTP response as consumed by translate_with_openai_direct: the status
code, the first choice content of the JSON body (meaningful on status 200),
and the raw body text. -/
structure HttpResponse where
  status : Nat
  content : String
  body : String

/-- The re-wrapping applied by the handler at src/app.py lines 116-117 to any
exception raised inside translate_with_openai_direct. -/
def wrapDirect (m : String) : String := "Direct API translation error: " ++ m

/-- translate_with_openai_direct (src/app.py lines 41-117), given the HTTP
response it received.  The key is stripped and its prefix checked first
(lines 45-49); the input is truncated at 3000 characters (lines 71-72); the
response is handled by status (lines 101-112), and every raised exception is
re-wrapped by the handler at lines 116-117. -/
def translate_with_openai_direct (text src dest key : String)
    (resp : HttpResponse) : BackendCall :=
  if "sk-".data.isPrefixOf (pyStrip key).data then
    let t := pyTruncate text
    if resp.status = 200 then
      let r := pyStrip resp.content
      ⟨.ok (if r.data.isEmpty then t else r), 1⟩
    else if resp.status = 401 then
      ⟨.error (wrapDirect "Invalid API key or authentication failed"), 1⟩
    else if resp.status = 429 then
      ⟨.error (wrapDirect "Rate limit exceeded. Please wait a moment and try again."), 1⟩
    else
      ⟨.error (wrapDirect ("API request failed with status " ++ toString resp.status ++
        ": " ++ resp.body)), 1⟩
  else ⟨.error (wrapDirect "Invalid API key format"), 0⟩

/-- Oracles for the remote services: the outcome of the OpenAI client call
and of the Google client call on each attempt. -/
structure Env where
  openaiNet : Nat → Except OpenAIFailure String
  google : Nat → Except String String

/-- Backend dispatch of translate_text_safely (src/app.py lines 214-217): the
OpenAI variant is used only when the selector is the string OpenAI and the
credential is truthy; otherwise the Google variant. -/
def backendFor (method : String) (key : Option String) (env : Env)
    (text src dest : String) (attempt : Nat) : BackendCall :=
  if method = "OpenAI" ∧ pyTruthy key = true then
    translate_with_openai text src dest (key.getD "") (env.openaiNet attempt)
  else
    translate_with_google text src dest (env.google attempt)

/-- Result of translate_text_safely: the returned string, and the recorded
effects (backend attempts, network calls, sleeps, warnings).  The function
returns a plain result, never an error: every backend exception is caught by
the retry loop. -/
structure SafeResult where
  text : String
  attempts : Nat
  netCalls : Nat
  sleeps : Nat
  warnings : List String
deriving DecidableEq

/-- The result of the early-return paths of translate_text_safely: the input
text, no attempts, no effects. -/
def skipResult (t : String) : SafeResult := ⟨t, 0, 0, 0, []⟩

/-- A single-quote character as a string. -/
def squote : String := String.singleton (Char.ofNat 39)

/-- The warning emitted at src/app.py line 223: a quoted 50-character preview
of the fragment followed by the error message. -/
def warnMsg (t e : String) : String :=
  "Failed to translate: " ++ squote ++ (⟨t.data.take 50⟩ : String) ++ "..." ++ squote ++
    " - " ++ e

/-- The retry loop of translate_text_safely (src/app.py lines 212-225) over
the list of remaining attempt indices.  On success the attempt's value is
returned at once; on failure at a non-final attempt the loop sleeps one unit
and continues; on failure at the final attempt the warning is emitted and the
original text returned.  The empty case is the fall-through return at line
225, reached only when the range is empty. -/
def runFrom (orig : String) (b : Nat → BackendCall) : List Nat → SafeResult
  | [] => skipResult orig
  | [i] =>
    match (b i).outcome with
    | .ok t => ⟨t, 1, (b i).net, 0, []⟩
    | .error e => ⟨orig, 1, (b i).net, 0, [warnMsg orig e]⟩
  | i :: j :: rest =>
    match (b i).outcome with
    | .ok t => ⟨t, 1, (b i).net, 0, []⟩
    | .error _ =>
      let r := runFrom orig b (j :: rest)
      ⟨r.text, r.attempts + 1, r.netCalls + (b i).net, r.sleeps + 1, r.warnings⟩

/-- translate_text_safely (src/app.py lines 200-225): skip links, skip texts
whose stripped form is shorter than 2 characters, otherwise run the retry
loop over range maxRetries. -/
def translate_text_safely (text src dest method : String) (key : Option String)
    (maxRetries : Nat) (env : Env) : SafeResult :=
  if is_url_or_link text then skipResult text
  else if (pyStrip text).length < 2 then skipResult text
  else runFrom text (backendFor method key env text src dest) (List.range maxRetries)

/-!
Document walker: translate_docx (src/app.py lines 228-291).  A document is a
list of paragraph texts and a list of tables, each table a list of rows, each
row a list of cell texts (cells are modelled as independent texts).  The
walker threads a state holding the progress counter, the recorded progress
events (the pairs passed to the progress bar), the number of substitutions,
and the visited fragments, in visit order.
-/

/-- Truthiness of a stripped text (the `if para.text.strip():` checks). -/
def hasText (s : String) : Bool := !(pyStrip s).data.isEmpty

/-- A .docx document as the walker sees it. -/
structure DocX where
  paragraphs : List String
  tables : List (List (List String))
deriving DecidableEq

/-- Number of eligible fragments in a fragment list. -/
def eligCount (l : List String) : Nat := (l.filter hasText).length

/-- Number of eligible cells in one table. -/
def eligRows : List (List String) → Nat
  | [] => 0
  | r :: rs => eligCount r + eligRows rs

/-- Number of eligible cells in a table list. -/
def eligTables : List (List (List String)) → Nat
  | [] => 0
  | tb :: tbs => eligRows tb + eligTables tbs

/-- total_items of translate_docx (src/app.py lines 232-238): eligible
paragraphs plus eligible table cells, computed up front. -/
def totalItems (doc : DocX) : Nat :=
  eligCount doc.paragraphs + eligTables doc.tables

/-- Eligible cells of one table, in row-major visit order. -/
def eligFragsRows : List (List String) → List String
  | [] => []
  | r :: rs => r.filter hasText ++ eligFragsRows rs

/-- Eligible cells of a table list, in visit order. -/
def eligFragsTables : List (List (List String)) → List String
  | [] => []
  | tb :: tbs => eligFragsRows tb ++ eligFragsTables tbs

/-- All eligible fragments of a document in visit order: paragraphs first,
then tables row-major, cells left-to-right. -/
def eligFrags (doc : DocX) : List String :=
  doc.paragraphs.filter hasText ++ eligFragsTables doc.tables

/-- Walker state: the progress counter current_item, the recorded progress
events (current_item, total_items), the substitution count, and the visited
fragments. -/
structure WState where
  cur : Nat
  events : List (Nat × Nat)
  subs : Nat
  visited : List String
deriving DecidableEq

/-- One pass over a fragment list (the paragraph loop at src/app.py lines
246-262, or the cells of one row): eligible fragments are overwritten with
the translator result, the counter advances, and a progress event is
recorded after each substitution. -/
def walkList (tr : Nat → String → String) (total : Nat) :
    List String → WState → List String × WState
  | [], s => ([], s)
  | p :: ps, s =>
    if hasText p then
      let s1 : WState :=
        ⟨s.cur + 1, s.events ++ [(s.cur + 1, total)], s.subs + 1, s.visited ++ [p]⟩
      let rest := walkList tr total ps s1
      (tr s.cur p :: rest.1, rest.2)
    else
      let rest := walkList tr total ps s
      (p :: rest.1, rest.2)

/-- The rows of one table, top to bottom. -/
def walkRows (tr : Nat → String → String) (total : Nat) :
    List (List String) → WState → List (List String) × WState
  | [], s => ([], s)
  | r :: rs, s =>
    let w1 := walkList tr total r s
    let w2 := walkRows tr total rs w1.2
    (w1.1 :: w2.1, w2.2)

/-- The tables of the document, in document order. -/
def walkTables (tr : Nat → String → String) (total : Nat) :
    List (List (List String)) → WState → List (List (List String)) × WState
  | [], s => ([], s)
  | tb :: tbs, s =>
    let w1 := walkRows tr total tb s
    let w2 := walkTables tr total tbs w1.2
    (w1.1 :: w2.1, w2.2)

/-- The per-fragment translator used by the walker: translate_text_safely
with the default max_retries of 3, the oracle environment chosen by the
fragment's visit index. -/
def fragTr (src dest method : String) (key : Option String) (envs : Nat → Env)
    (idx : Nat) (t : String) : String :=
  (translate_text_safely t src dest method key 3 (envs idx)).text

/-- Result of translate_docx: the rewritten document and the recorded
effects. -/
structure WalkOut where
  doc : DocX
  events : List (Nat × Nat)
  subs : Nat
  visited : List String
deriving DecidableEq

/-- translate_docx (src/app.py lines 228-291): compute total_items up front,
walk the paragraphs, then the tables. -/
def translate_docx (doc : DocX) (src dest method : String) (key : Option String)
    (envs : Nat → Env) : WalkOut :=
  let total := totalItems doc
  let w1 := walkList (fragTr src dest method key envs) total doc.paragraphs ⟨0, [], 0, []⟩
  let w2 := walkTables (fragTr src dest method key envs) total doc.tables w1.2
  ⟨⟨w1.1, w2.1⟩, w2.2.events, w2.2.subs, w2.2.visited⟩

/-- The pure in-place substitution on a fragment list: eligible fragments are
replaced by the translator result at their visit index, starting at counter
c; others are untouched. -/
def overwriteList (tr : Nat → String → String) (c : Nat) : List String → List String
  | [] => []
  | p :: ps =>
    if hasText p then tr c p :: overwriteList tr (c + 1) ps
    else p :: overwriteList tr c ps

/-- In-place substitution on one table. -/
def overwriteRows (tr : Nat → String → String) (c : Nat) :
    List (List String) → List (List String)
  | [] => []
  | r :: rs => overwriteList tr c r :: overwriteRows tr (c + eligCount r) rs

/-- In-place substitution on a table list. -/
def overwriteTables (tr : Nat → String → String) (c : Nat) :
    List (List (List String)) → List (List (List String))
  | [] => []
  | tb :: tbs => overwriteRows tr c tb :: overwriteTables tr (c + eligRows tb) tbs

/-- The progress events recorded by n consecutive substitutions starting at
counter c: the pairs (c+1, total) through (c+n, total). -/
def progEvents (c total : Nat) : Nat → List (Nat × Nat)
  | 0 => []
  | n + 1 => (c + 1, total) :: progEvents (c + 1) total n

/-- UserTracker.can_translate (src/user_tracker.py lines 121-124).  The
SQLite query behind get_daily_count is abstracted to its result, the user's
translation count for today. -/
def can_translate (currentCount dailyLimit : Nat) : Bool :=
  decide (currentCount < dailyLimit)

/-- The Translate button flow at module level (src/app.py lines 362-402):
given a file and both language codes, the OpenAI selector with a falsy key
shows an error and does not translate; otherwise pressing the button runs
translate_docx.  The flow consults no usage tracker.  The result is the
walker output when the walker ran. -/
def translateButtonFlow (uploadedFile : Option DocX) (srcLang destLang method : String)
    (key : Option String) (pressed : Bool) (envs : Nat → Env) : Option WalkOut :=
  match uploadedFile with
  | none => none
  | some doc =>
    if srcLang.data.isEmpty || destLang.data.isEmpty then none
    else if method = "OpenAI" ∧ pyTruthy key = false then none
    else if pressed then some (translate_docx doc srcLang destLang method key envs)
    else none

/-- True on a successful backend outcome. -/
def isOkE : Except String String → Bool
  | .ok _ => true
  | .error _ => false

/-- A concrete oracle environment: both backends succeed on every attempt. -/
def demoEnv : Env := ⟨fun _ => Except.ok "unused", fun _ => Except.ok "Hallo"⟩

/-- A concrete oracle environment for the retry scenario: the Google backend
raises a rate-limit error on the first two attempts and succeeds on the
third. -/
def envRetry : Env :=
  ⟨fun _ => Except.ok "unused",
   fun a => if a < 2 then Except.error "Rate limit exceeded" else Except.ok "Hallo Welt"⟩

/-- A 3001-character input, longer than the 3000-character truncation bound. -/
def bigA : String := ⟨List.replicate 3001 'a'⟩

/-!
Helper lemmas.
-/

lemma hasSub_of_prefix {p l : List Char} (h : p <+: l) : hasSub p l = true := by
  cases l with
  | nil =>
    have hp : p = [] := List.prefix_nil.mp h
    subst hp; rfl
  | cons c cs =>
    have hp : p.isPrefixOf (c :: cs) = true := List.isPrefixOf_iff_prefix.mpr h
    simp [hasSub, hp]

lemma hasSub_of_infix {p l : List Char} (h : p <:+: l) : hasSub p l = true := by
  obtain ⟨s, t, rfl⟩ := h
  induction s with
  | nil => exact hasSub_of_prefix (by simpa using List.prefix_append p t)
  | cons c cs ih =>
    have hc : (c :: cs) ++ p ++ t = c :: (cs ++ p ++ t) := by simp
    rw [hc]
    simp only [hasSub, Bool.or_eq_true, List.isPrefixOf_iff_prefix]
    exact Or.inr (by simpa using ih)

lemma isOkE_false {x : Except String String} (h : isOkE x = false) :
    ∃ e, x = Except.error e := by
  cases x with
  | error e => exact ⟨e, rfl⟩
  | ok t => simp [isOkE] at h

lemma runFrom_head_ok {orig : String} {b : Nat → BackendCall} {i : Nat}
    {rest : List Nat} {t : String} (h : (b i).outcome = Except.ok t) :
    runFrom orig b (i :: rest) = ⟨t, 1, (b i).net, 0, []⟩ := by
  cases rest <;> simp [runFrom, h]

lemma runFrom_last_err {orig : String} {b : Nat → BackendCall} {i : Nat} {e : String}
    (h : (b i).outcome = Except.error e) :
    runFrom orig b [i] = ⟨orig, 1, (b i).net, 0, [warnMsg orig e]⟩ := by
  simp [runFrom, h]

lemma runFrom_head_err {orig : String} {b : Nat → BackendCall} {i j : Nat}
    {rest : List Nat} {e : String} (h : (b i).outcome = Except.error e) :
    runFrom orig b (i :: j :: rest) =
      ⟨(runFrom orig b (j :: rest)).text, (runFrom orig b (j :: rest)).attempts + 1,
       (runFrom orig b (j :: rest)).netCalls + (b i).net,
       (runFrom orig b (j :: rest)).sleeps + 1, (runFrom orig b (j :: rest)).warnings⟩ := by
  simp [runFrom, h]

lemma runFrom_attempts_le (orig : String) (b : Nat → BackendCall) :
    ∀ l : List Nat, (runFrom orig b l).attempts ≤ l.length := by
  intro l
  induction l with
  | nil => simp [runFrom, skipResult]
  | cons i rest ih =>
    cases rest with
    | nil =>
      cases h : (b i).outcome with
      | error e => rw [runFrom_last_err h]; simp
      | ok t => rw [runFrom_head_ok h]; simp
    | cons j rest2 =>
      cases h : (b i).outcome with
      | error e =>
        rw [runFrom_head_err h]
        simpa using Nat.succ_le_succ ih
      | ok t => rw [runFrom_head_ok h]; simp

lemma runFrom_success (orig : String) (b : Nat → BackendCall) :
    ∀ (n a k : Nat) (t : String), k < n → (b (a + k)).outcome = Except.ok t →
      (∀ j, j < k → isOkE (b (a + j)).outcome = false) →
      (runFrom orig b (List.range' a n)).text = t ∧
      (runFrom orig b (List.range' a n)).attempts = k + 1 ∧
      (runFrom orig b (List.range' a n)).sleeps = k ∧
      (runFrom orig b (List.range' a n)).warnings = [] := by
  intro n
  induction n with
  | zero => intro a k t hk; exact absurd hk (Nat.not_lt_zero k)
  | succ m ih =>
    intro a k t hk hok hfail
    have hr : List.range' a (m + 1) = a :: List.range' (a + 1) m := rfl
    cases k with
    | zero =>
      rw [hr, runFrom_head_ok (show (b a).outcome = Except.ok t by simpa using hok)]
      exact ⟨rfl, rfl, rfl, rfl⟩
    | succ k2 =>
      have h0 : isOkE (b a).outcome = false := by simpa using hfail 0 (Nat.succ_pos k2)
      obtain ⟨e, he⟩ := isOkE_false h0
      cases m with
      | zero => omega
      | succ m2 =>
        have hr2 : List.range' (a + 1) (m2 + 1) = (a + 1) :: List.range' (a + 2) m2 := rfl
        have hok2 : (b (a + 1 + k2)).outcome = Except.ok t := by
          have hx : a + 1 + k2 = a + (k2 + 1) := by omega
          rw [hx]; exact hok
        have hfail2 : ∀ j, j < k2 → isOkE (b (a + 1 + j)).outcome = false := by
          intro j hj
          have hx : a + 1 + j = a + (j + 1) := by omega
          rw [hx]; exact hfail (j + 1) (by omega)
        have ihres := ih (a + 1) k2 t (by omega) hok2 hfail2
        rw [hr2] at ihres
        rw [hr, hr2, runFrom_head_err he]
        exact ⟨ihres.1, by rw [ihres.2.1], by rw [ihres.2.2.1], ihres.2.2.2⟩

lemma runFrom_allFail (orig : String) (b : Nat → BackendCall) :
    ∀ (n a : Nat), 1 ≤ n → (∀ j, j < n → isOkE (b (a + j)).outcome = false) →
      ∃ e, (b (a + (n - 1))).outcome = Except.error e ∧
        (runFrom orig b (List.range' a n)).text = orig ∧
        (runFrom orig b (List.range' a n)).attempts = n ∧
        (runFrom orig b (List.range' a n)).sleeps = n - 1 ∧
        (runFrom orig b (List.range' a n)).warnings = [warnMsg orig e] := by
  intro n
  induction n with
  | zero => intro a h1; omega
  | succ m ih =>
    intro a h1 hfail
    have hr : List.range' a (m + 1) = a :: List.range' (a + 1) m := rfl
    cases m with
    | zero =>
      obtain ⟨e, he⟩ := isOkE_false (by simpa using hfail 0 Nat.one_pos)
      refine ⟨e, by simpa using he, ?_⟩
      rw [hr]
      have h2 : List.range' (a + 1) 0 = [] := rfl
      rw [h2, runFrom_last_err he]
      exact ⟨rfl, rfl, rfl, rfl⟩
    | succ m2 =>
      obtain ⟨e0, he0⟩ := isOkE_false (by simpa using hfail 0 (Nat.succ_pos _))
      have hfail2 : ∀ j, j < m2 + 1 → isOkE (b (a + 1 + j)).outcome = false := by
        intro j hj
        have hx : a + 1 + j = a + (j + 1) := by omega
        rw [hx]; exact hfail (j + 1) (by omega)
      obtain ⟨e, he, ht, ha, hs, hw⟩ := ih (a + 1) (by omega) hfail2
      have hr2 : List.range' (a + 1) (m2 + 1) = (a + 1) :: List.range' (a + 2) m2 := rfl
      rw [hr2] at ht ha hs hw
      have hidx : a + 1 + (m2 + 1 - 1) = a + (m2 + 1 + 1 - 1) := by omega
      refine ⟨e, by rw [← hidx]; exact he, ?_, ?_, ?_, ?_⟩
      · rw [hr, hr2, runFrom_head_err he0]; exact ht
      · rw [hr, hr2, runFrom_head_err he0]; rw [ha]
      · rw [hr, hr2, runFrom_head_err he0]; simp only [hs]; omega
      · rw [hr, hr2, runFrom_head_err he0]; exact hw

lemma runFrom_constFail (orig : String) (b : Nat → BackendCall) (E : String)
    (hb : ∀ i, b i = ⟨Except.error E, 0⟩) :
    ∀ l : List Nat, l ≠ [] →
      runFrom orig b l = ⟨orig, l.length, 0, l.length - 1, [warnMsg orig E]⟩ := by
  intro l
  induction l with
  | nil => intro h; exact absurd rfl h
  | cons i rest ih =>
    intro _
    cases rest with
    | nil =>
      rw [runFrom_last_err (show (b i).outcome = Except.error E by rw [hb i])]
      simp [hb i]
    | cons j rest2 =>
      rw [runFrom_head_err (show (b i).outcome = Except.error E by rw [hb i])]
      rw [ih (by simp)]
      simp [hb i]

lemma tts_run (text src dest method : String) (key : Option String) (mr : Nat)
    (env : Env) (hlink : is_url_or_link text = false)
    (hlen : ¬ (pyStrip text).length < 2) :
    translate_text_safely text src dest method key mr env =
      runFrom text (backendFor method key env text src dest) (List.range mr) := by
  simp [translate_text_safely, hlink, hlen]

lemma progEvents_add (total : Nat) :
    ∀ (m n c : Nat), progEvents c total (m + n) =
      progEvents c total m ++ progEvents (c + m) total n := by
  intro m
  induction m with
  | zero => intro n c; simp [progEvents]
  | succ m2 ih =>
    intro n c
    have h : m2 + 1 + n = (m2 + n) + 1 := by omega
    rw [h]
    show (c + 1, total) :: progEvents (c + 1) total (m2 + n) = _
    rw [ih n (c + 1)]
    have h2 : c + 1 + m2 = c + (m2 + 1) := by omega
    rw [h2]
    rfl

lemma walkList_eq (tr : Nat → String → String) (total : Nat) :
    ∀ (l : List String) (c : Nat) (ev : List (Nat × Nat)) (sb : Nat) (vis : List String),
      walkList tr total l ⟨c, ev, sb, vis⟩ =
        (overwriteList tr c l,
         ⟨c + eligCount l, ev ++ progEvents c total (eligCount l), sb + eligCount l,
          vis ++ l.filter hasText⟩) := by
  intro l
  induction l with
  | nil => intro c ev sb vis; simp [walkList, overwriteList, eligCount, progEvents]
  | cons p ps ih =>
    intro c ev sb vis
    by_cases hp : hasText p
    · have hcount : eligCount (p :: ps) = eligCount ps + 1 := by
        simp [eligCount, List.filter_cons, hp]
      rw [show walkList tr total (p :: ps) ⟨c, ev, sb, vis⟩ =
          (tr c p :: (walkList tr total ps ⟨c + 1, ev ++ [(c + 1, total)], sb + 1,
            vis ++ [p]⟩).1,
           (walkList tr total ps ⟨c + 1, ev ++ [(c + 1, total)], sb + 1, vis ++ [p]⟩).2)
          from by simp [walkList, hp]]
      rw [ih]
      refine Prod.ext ?_ ?_
      · show tr c p :: overwriteList tr (c + 1) ps = overwriteList tr c (p :: ps)
        simp [overwriteList, hp]
      · show (⟨c + 1 + eligCount ps, (ev ++ [(c + 1, total)]) ++ progEvents (c + 1) total (eligCount ps),
          sb + 1 + eligCount ps, (vis ++ [p]) ++ ps.filter hasText⟩ : WState) = _
        rw [hcount]
        have h1 : c + 1 + eligCount ps = c + (eligCount ps + 1) := by omega
        have h2 : sb + 1 + eligCount ps = sb + (eligCount ps + 1) := by omega
        have h3 : (ev ++ [(c + 1, total)]) ++ progEvents (c + 1) total (eligCount ps) =
            ev ++ progEvents c total (eligCount ps + 1) := by
          show _ = ev ++ ((c + 1, total) :: progEvents (c + 1) total (eligCount ps))
          simp
        have h4 : (vis ++ [p]) ++ ps.filter hasText = vis ++ (p :: ps).filter hasText := by
          simp [List.filter_cons, hp]
        rw [h1, h2, h3, h4]
    · have hcount : eligCount (p :: ps) = eligCount ps := by
        simp [eligCount, List.filter_cons, hp]
      rw [show walkList tr total (p :: ps) ⟨c, ev, sb, vis⟩ =
          (p :: (walkList tr total ps ⟨c, ev, sb, vis⟩).1,
           (walkList tr total ps ⟨c, ev, sb, vis⟩).2)
          from by simp [walkList, hp]]
      rw [ih]
      refine Prod.ext ?_ ?_
      · show p :: overwriteList tr c ps = overwriteList tr c (p :: ps)
        simp [overwriteList, hp]
      · rw [hcount]
        have h4 : ps.filter hasText = (p :: ps).filter hasText := by
          simp [List.filter_cons, hp]
        rw [h4]

lemma walkRows_eq (tr : Nat → String → String) (total : Nat) :
    ∀ (rows : List (List String)) (c : Nat) (ev : List (Nat × Nat)) (sb : Nat)
      (vis : List String),
      walkRows tr total rows ⟨c, ev, sb, vis⟩ =
        (overwriteRows tr c rows,
         ⟨c + eligRows rows, ev ++ progEvents c total (eligRows rows), sb + eligRows rows,
          vis ++ eligFragsRows rows⟩) := by
  intro rows
  induction rows with
  | nil => intro c ev sb vis; simp [walkRows, overwriteRows, eligRows, eligFragsRows, progEvents]
  | cons r rs ih =>
    intro c ev sb vis
    have hw : walkRows tr total (r :: rs) ⟨c, ev, sb, vis⟩ =
        ((walkList tr total r ⟨c, ev, sb, vis⟩).1 ::
           (walkRows tr total rs (walkList tr total r ⟨c, ev, sb, vis⟩).2).1,
         (walkRows tr total rs (walkList tr total r ⟨c, ev, sb, vis⟩).2).2) := rfl
    rw [hw, walkList_eq tr total r c ev sb vis]
    dsimp only
    rw [ih]
    refine Prod.ext rfl ?_
    show (⟨c + eligCount r + eligRows rs,
        (ev ++ progEvents c total (eligCount r)) ++ progEvents (c + eligCount r) total (eligRows rs),
        sb + eligCount r + eligRows rs,
        (vis ++ r.filter hasText) ++ eligFragsRows rs⟩ : WState) = _
    have h1 : c + eligCount r + eligRows rs = c + eligRows (r :: rs) := by
      show _ = c + (eligCount r + eligRows rs); omega
    have h2 : (ev ++ progEvents c total (eligCount r)) ++
        progEvents (c + eligCount r) total (eligRows rs) =
        ev ++ progEvents c total (eligRows (r :: rs)) := by
      show _ = ev ++ progEvents c total (eligCount r + eligRows rs)
      rw [progEvents_add total (eligCount r) (eligRows rs) c]
      simp
    have h3 : sb + eligCount r + eligRows rs = sb + eligRows (r :: rs) := by
      show _ = sb + (eligCount r + eligRows rs); omega
    have h4 : (vis ++ r.filter hasText) ++ eligFragsRows rs = vis ++ eligFragsRows (r :: rs) := by
      show _ = vis ++ (r.filter hasText ++ eligFragsRows rs)
      simp
    rw [h1, h2, h3, h4]

lemma walkTables_eq (tr : Nat → String → String) (total : Nat) :
    ∀ (tbs : List (List (List String))) (c : Nat) (ev : List (Nat × Nat)) (sb : Nat)
      (vis : List String),
      walkTables tr total tbs ⟨c, ev, sb, vis⟩ =
        (overwriteTables tr c tbs,
         ⟨c + eligTables tbs, ev ++ progEvents c total (eligTables tbs),
          sb + eligTables tbs, vis ++ eligFragsTables tbs⟩) := by
  intro tbs
  induction tbs with
  | nil =>
    intro c ev sb vis
    simp [walkTables, overwriteTables, eligTables, eligFragsTables, progEvents]
  | cons tb tbs2 ih =>
    intro c ev sb vis
    have hw : walkTables tr total (tb :: tbs2) ⟨c, ev, sb, vis⟩ =
        ((walkRows tr total tb ⟨c, ev, sb, vis⟩).1 ::
           (walkTables tr total tbs2 (walkRows tr total tb ⟨c, ev, sb, vis⟩).2).1,
         (walkTables tr total tbs2 (walkRows tr total tb ⟨c, ev, sb, vis⟩).2).2) := rfl
    rw [hw, walkRows_eq tr total tb c ev sb vis]
    dsimp only
    rw [ih]
    refine Prod.ext rfl ?_
    have h1 : c + eligRows tb + eligTables tbs2 = c + eligTables (tb :: tbs2) := by
      show _ = c + (eligRows tb + eligTables tbs2); omega
    have h2 : (ev ++ progEvents c total (eligRows tb)) ++
        progEvents (c + eligRows tb) total (eligTables tbs2) =
        ev ++ progEvents c total (eligTables (tb :: tbs2)) := by
      show _ = ev ++ progEvents c total (eligRows tb + eligTables tbs2)
      rw [progEvents_add total (eligRows tb) (eligTables tbs2) c]
      simp
    have h3 : sb + eligRows tb + eligTables tbs2 = sb + eligTables (tb :: tbs2) := by
      show _ = sb + (eligRows tb + eligTables tbs2); omega
    have h4 : (vis ++ eligFragsRows tb) ++ eligFragsTables tbs2 =
        vis ++ eligFragsTables (tb :: tbs2) := by
      show _ = vis ++ (eligFragsRows tb ++ eligFragsTables tbs2)
      simp
    rw [h1, h2, h3, h4]

lemma translate_docx_eq (doc : DocX) (src dest method : String) (key : Option String)
    (envs : Nat → Env) :
    translate_docx doc src dest method key envs =
      ⟨⟨overwriteList (fragTr src dest method key envs) 0 doc.paragraphs,
        overwriteTables (fragTr src dest method key envs) (eligCount doc.paragraphs)
          doc.tables⟩,
       progEvents 0 (totalItems doc) (totalItems doc),
       totalItems doc,
       eligFrags doc⟩ := by
  have hw : translate_docx doc src dest method key envs =
      ⟨⟨(walkList (fragTr src dest method key envs) (totalItems doc) doc.paragraphs
           ⟨0, [], 0, []⟩).1,
        (walkTables (fragTr src dest method key envs) (totalItems doc) doc.tables
           (walkList (fragTr src dest method key envs) (totalItems doc) doc.paragraphs
             ⟨0, [], 0, []⟩).2).1⟩,
       (walkTables (fragTr src dest method key envs) (totalItems doc) doc.tables
          (walkList (fragTr src dest method key envs) (totalItems doc) doc.paragraphs
            ⟨0, [], 0, []⟩).2).2.events,
       (walkTables (fragTr src dest method key envs) (totalItems doc) doc.tables
          (walkList (fragTr src dest method key envs) (totalItems doc) doc.paragraphs
            ⟨0, [], 0, []⟩).2).2.subs,
       (walkTables (fragTr src dest method key envs) (totalItems doc) doc.tables
          (walkList (fragTr src dest method key envs) (totalItems doc) doc.paragraphs
            ⟨0, [], 0, []⟩).2).2.visited⟩ := rfl
  rw [hw, walkList_eq, walkTables_eq]
  dsimp only
  simp only [List.nil_append, Nat.zero_add]
  have he : progEvents 0 (totalItems doc) (eligCount doc.paragraphs) ++
      progEvents (eligCount doc.paragraphs) (totalItems doc) (eligTables doc.tables) =
      progEvents 0 (totalItems doc) (eligCount doc.paragraphs + eligTables doc.tables) := by
    rw [progEvents_add (totalItems doc) (eligCount doc.paragraphs) (eligTables doc.tables) 0]
    rw [Nat.zero_add]
  rw [he]
  rfl

lemma eligFragsRows_length :
    ∀ rows : List (List String), (eligFragsRows rows).length = eligRows rows := by
  intro rows
  induction rows with
  | nil => rfl
  | cons r rs ih => simp [eligFragsRows, eligRows, eligCount, ih]

lemma eligFragsTables_length :
    ∀ tbs : List (List (List String)), (eligFragsTables tbs).length = eligTables tbs := by
  intro tbs
  induction tbs with
  | nil => rfl
  | cons tb tbs2 ih => simp [eligFragsTables, eligTables, eligFragsRows_length, ih]

lemma eligFrags_length (doc : DocX) : (eligFrags doc).length = totalItems doc := by
  simp [eligFrags, totalItems, eligCount, eligFragsTables_length]

lemma overwriteList_id (tr : Nat → String → String) :
    ∀ (l : List String) (c : Nat), (∀ p ∈ l, hasText p = false) →
      overwriteList tr c l = l := by
  intro l
  induction l with
  | nil => intro c _; rfl
  | cons p ps ih =>
    intro c h
    have hp : hasText p = false := h p (by simp)
    simp [overwriteList, hp]
    exact ih c (fun q hq => h q (by simp [hq]))

lemma eligCount_zero {l : List String} (h : ∀ p ∈ l, hasText p = false) :
    eligCount l = 0 := by
  simp [eligCount, List.length_eq_zero, List.filter_eq_nil_iff]
  intro a ha
  simp [h a ha]

lemma warnMsg_contains_preview (t e : String) :
    hasSub (t.data.take 50) (warnMsg t e).data = true := by
  apply hasSub_of_infix
  refine ⟨"Failed to translate: ".data ++ squote.data,
          "...".data ++ squote.data ++ " - ".data ++ e.data, ?_⟩
  simp [warnMsg, String.data_append]

lemma warnMsg_contains_error (t e : String) :
    hasSub e.data (warnMsg t e).data = true := by
  apply hasSub_of_infix
  refine ⟨("Failed to translate: " ++ squote ++ (⟨t.data.take 50⟩ : String) ++ "..." ++
    squote ++ " - ").data, [], ?_⟩
  simp [warnMsg, String.data_append]

lemma mem_progEvents :
    ∀ (n c0 total x y : Nat), (x, y) ∈ progEvents c0 total n →
      y = total ∧ c0 < x ∧ x ≤ c0 + n := by
  intro n
  induction n with
  | zero => intro c0 total x y h; simp [progEvents] at h
  | succ m ih =>
    intro c0 total x y h
    rw [show progEvents c0 total (m + 1) = (c0 + 1, total) :: progEvents (c0 + 1) total m
      from rfl] at h
    rcases List.mem_cons.mp h with h1 | h1
    · have hx : x = c0 + 1 ∧ y = total := by
        constructor <;> [exact congrArg Prod.fst h1; exact congrArg Prod.snd h1]
      exact ⟨hx.2, by omega, by omega⟩
    · obtain ⟨hy, hlt, hle⟩ := ih (c0 + 1) total x y h1
      exact ⟨hy, by omega, by omega⟩

/-!
Claim theorems.
-/

/-- C1: for every text, language pair, backend selector and credential,
translate_text_safely performs at most max_retries backend attempts; when the
text is not skipped and the backend first succeeds at 0-based attempt k (so
the claim's 1-based attempt k+1), it returns that attempt's translated text
after exactly k one-unit sleeps, one per failed attempt, with no warning;
when every one of the max_retries attempts raises, it returns the original
text and emits a single warning containing the 50-character preview of the
fragment and the final error message.  The function is total into SafeResult:
the embedded retry loop catches every backend exception, so no exception
reaches the caller. -/
theorem retry_policy (text src dest method : String) (key : Option String)
    (mr : Nat) (env : Env) :
    (translate_text_safely text src dest method key mr env).attempts ≤ mr ∧
    (is_url_or_link text = false → ¬ (pyStrip text).length < 2 →
      ((∀ (k : Nat) (t : String), k < mr →
          (backendFor method key env text src dest k).outcome = Except.ok t →
          (∀ j, j < k → isOkE (backendFor method key env text src dest j).outcome = false) →
          (translate_text_safely text src dest method key mr env).text = t ∧
          (translate_text_safely text src dest method key mr env).attempts = k + 1 ∧
          (translate_text_safely text src dest method key mr env).sleeps = k ∧
          (translate_text_safely text src dest method key mr env).warnings = []) ∧
        (1 ≤ mr →
          (∀ j, j < mr → isOkE (backendFor method key env text src dest j).outcome = false) →
          ∃ e, (backendFor method key env text src dest (mr - 1)).outcome = Except.error e ∧
            (translate_text_safely text src dest method key mr env).text = text ∧
            (translate_text_safely text src dest method key mr env).sleeps = mr - 1 ∧
            (translate_text_safely text src dest method key mr env).warnings =
              [warnMsg text e] ∧
            hasSub (text.data.take 50) (warnMsg text e).data = true ∧
            hasSub e.data (warnMsg text e).data = true))) := by
  constructor
  · by_cases h1 : is_url_or_link text
    · simp [translate_text_safely, h1, skipResult]
    · by_cases h2 : (pyStrip text).length < 2
      · simp [translate_text_safely, h1, h2, skipResult]
      · rw [tts_run text src dest method key mr env (by simpa using h1) h2]
        calc (runFrom text (backendFor method key env text src dest)
                (List.range mr)).attempts
            ≤ (List.range mr).length := runFrom_attempts_le _ _ _
          _ = mr := List.length_range mr
  · intro hlink hlen
    rw [tts_run text src dest method key mr env hlink hlen]
    constructor
    · intro k t hk hok hfail
      rw [List.range_eq_range']
      exact runFrom_success text _ mr 0 k t hk (by simpa using hok)
        (fun j hj => by simpa using hfail j hj)
    · intro hmr hfail
      rw [List.range_eq_range']
      obtain ⟨e, he, h1, h2, h3, h4⟩ :=
        runFrom_allFail text (backendFor method key env text src dest) mr 0 hmr
          (fun j hj => by simpa using hfail j hj)
      exact ⟨e, by simpa using he, h1, h3, h4,
        warnMsg_contains_preview text e, warnMsg_contains_error text e⟩

/-- Witness for C1, the spec's retry scenario: with max_retries 3 the Google
backend raises a rate-limit error on the first two attempts and succeeds on
the third; the translated text is returned after two sleeps with no
warning. -/
theorem retry_policy_witness :
    (translate_text_safely "Hello world" "en" "de" "Google Translate" none 3
      envRetry).text = "Hallo Welt" ∧
    (translate_text_safely "Hello world" "en" "de" "Google Translate" none 3
      envRetry).sleeps = 2 ∧
    (translate_text_safely "Hello world" "en" "de" "Google Translate" none 3
      envRetry).warnings = [] := by
  have h := (retry_policy "Hello world" "en" "de" "Google Translate" none 3 envRetry).2
    (by decide) (by decide)
  obtain ⟨ht, _, hs, hw⟩ := h.1 2 "Hallo Welt" (by decide) rfl (by decide)
  exact ⟨ht, hs, hw⟩

/-- C3: every text containing http://, https://, www. or mailto: as a
substring of its lowercased form is classified as a link by is_url_or_link,
and translate_text_safely returns it unchanged with no backend attempt and no
network call. -/
theorem link_text_skipped (text src dest method : String) (key : Option String)
    (mr : Nat) (env : Env)
    (h : hasSub "http://".data (lowerL text) = true ∨
         hasSub "https://".data (lowerL text) = true ∨
         hasSub "www.".data (lowerL text) = true ∨
         hasSub "mailto:".data (lowerL text) = true) :
    is_url_or_link text = true ∧
    translate_text_safely text src dest method key mr env = skipResult text := by
  have hl : is_url_or_link text = true := by
    unfold is_url_or_link indicatorHit
    rcases h with h | h | h | h <;> simp [h]
  exact ⟨hl, by simp [translate_text_safely, hl]⟩

/-- Witness for C3 at the spec's example fragment. -/
theorem link_text_skipped_witness :
    is_url_or_link "Visit https://example.com today" = true ∧
    translate_text_safely "Visit https://example.com today" "en" "de"
      "Google Translate" none 3 demoEnv =
      skipResult "Visit https://example.com today" :=
  link_text_skipped "Visit https://example.com today" "en" "de" "Google Translate"
    none 3 demoEnv (Or.inr (Or.inl (by decide)))

/-- C4: every text whose stripped form has length below 2 is returned
unchanged by translate_text_safely, with no backend attempt and no network
call. -/
theorem short_text_skipped (text src dest method : String) (key : Option String)
    (mr : Nat) (env : Env) (h : (pyStrip text).length < 2) :
    translate_text_safely text src dest method key mr env = skipResult text := by
  by_cases hl : is_url_or_link text
  · simp [translate_text_safely, hl]
  · simp [translate_text_safely, hl, h]

/-- Witness for C4 on a one-character text. -/
theorem short_text_skipped_witness :
    translate_text_safely "." "en" "de" "Google Translate" none 3 demoEnv =
      skipResult "." :=
  short_text_skipped "." "en" "de" "Google Translate" none 3 demoEnv (by decide)

/-- C6: for every translatable text and every truthy OpenAI credential whose
stripped form does not start with sk-, the OpenAI-dispatched retry loop fails
locally on each of the max_retries attempts with no network call, then
returns the original text and emits the warning with the local format
error. -/
theorem openai_malformed_key_local_failure (text src dest key : String) (mr : Nat)
    (env : Env)
    (hlink : is_url_or_link text = false) (hlen : ¬ (pyStrip text).length < 2)
    (hkey : key.data.isEmpty = false)
    (hsk : "sk-".data.isPrefixOf (pyStrip key).data = false)
    (hmr : 1 ≤ mr) :
    (translate_text_safely text src dest "OpenAI" (some key) mr env).text = text ∧
    (translate_text_safely text src dest "OpenAI" (some key) mr env).netCalls = 0 ∧
    (translate_text_safely text src dest "OpenAI" (some key) mr env).attempts = mr ∧
    (translate_text_safely text src dest "OpenAI" (some key) mr env).warnings =
      [warnMsg text "OpenAI translation error: Invalid API key format"] := by
  have hb : ∀ i, backendFor "OpenAI" (some key) env text src dest i =
      ⟨Except.error "OpenAI translation error: Invalid API key format", 0⟩ := by
    intro i
    unfold backendFor
    rw [if_pos ⟨rfl, by simp [pyTruthy, hkey]⟩]
    unfold translate_with_openai
    rw [Option.getD]
    rw [if_neg (by simp [hsk])]
  rw [tts_run text src dest "OpenAI" (some key) mr env hlink hlen]
  rw [runFrom_constFail text _ _ hb (List.range mr)
    (fun h => by rw [List.range_eq_nil] at h; omega)]
  refine ⟨rfl, rfl, ?_, rfl⟩
  simp

/-- Witness for C6, the spec's malformed-key scenario with the key bad-key. -/
theorem openai_malformed_key_local_failure_witness :
    (translate_text_safely "Hello world" "en" "de" "OpenAI" (some "bad-key") 3
      demoEnv).text = "Hello world" ∧
    (translate_text_safely "Hello world" "en" "de" "OpenAI" (some "bad-key") 3
      demoEnv).netCalls = 0 ∧
    (translate_text_safely "Hello world" "en" "de" "OpenAI" (some "bad-key") 3
      demoEnv).attempts = 3 ∧
    (translate_text_safely "Hello world" "en" "de" "OpenAI" (some "bad-key") 3
      demoEnv).warnings =
      [warnMsg "Hello world" "OpenAI translation error: Invalid API key format"] :=
  openai_malformed_key_local_failure "Hello world" "en" "de" "bad-key" 3 demoEnv
    (by decide) (by decide) (by decide) (by decide) (by decide)

/-- C9: when the backend selector is OpenAI but the credential is None or the
empty string, the dispatch falls through to the Google backend on every
attempt, and translate_text_safely behaves exactly as with the Google
selector. -/
theorem openai_empty_key_uses_google (text src dest : String) (key : Option String)
    (mr : Nat) (env : Env) (hkey : key = none ∨ key = some "") :
    (∀ a, backendFor "OpenAI" key env text src dest a =
        translate_with_google text src dest (env.google a)) ∧
    translate_text_safely text src dest "OpenAI" key mr env =
      translate_text_safely text src dest "Google Translate" key mr env := by
  have ht : pyTruthy key = false := by
    rcases hkey with rfl | rfl
    · rfl
    · rfl
  have hb : ∀ a, backendFor "OpenAI" key env text src dest a =
      translate_with_google text src dest (env.google a) := by
    intro a
    unfold backendFor
    rw [if_neg (fun hand => by rw [ht] at hand; exact absurd hand.2 (by simp))]
  refine ⟨hb, ?_⟩
  unfold translate_text_safely
  have hb2 : backendFor "OpenAI" key env text src dest =
      backendFor "Google Translate" key env text src dest := by
    funext a
    rw [hb a]
    unfold backendFor
    rw [if_neg (fun hand => absurd hand.1 (by decide))]
  rw [hb2]

/-- Witness for C9 with a None credential. -/
theorem openai_empty_key_uses_google_witness :
    (∀ a, backendFor "OpenAI" none demoEnv "Hello" "en" "de" a =
        translate_with_google "Hello" "en" "de" (demoEnv.google a)) ∧
    translate_text_safely "Hello" "en" "de" "OpenAI" none 3 demoEnv =
      translate_text_safely "Hello" "en" "de" "Google Translate" none 3 demoEnv :=
  openai_empty_key_uses_google "Hello" "en" "de" none 3 demoEnv (Or.inl rfl)

/-- C2: the walker visits exactly the non-whitespace fragments, each once, in
the order paragraphs first, then tables row-major with cells left-to-right;
the number of substitutions equals the number of visited fragments and equals
the fragment count computed up front; and the output document is the input
with exactly the visited fragments overwritten in place by the translator's
results. -/
theorem walker_visits_each_fragment_once (doc : DocX) (src dest method : String)
    (key : Option String) (envs : Nat → Env) :
    (translate_docx doc src dest method key envs).visited = eligFrags doc ∧
    (translate_docx doc src dest method key envs).subs = (eligFrags doc).length ∧
    (eligFrags doc).length = totalItems doc ∧
    (translate_docx doc src dest method key envs).doc.paragraphs =
      overwriteList (fragTr src dest method key envs) 0 doc.paragraphs ∧
    (translate_docx doc src dest method key envs).doc.tables =
      overwriteTables (fragTr src dest method key envs) (eligCount doc.paragraphs)
        doc.tables := by
  rw [translate_docx_eq]
  exact ⟨rfl, (eligFrags_length doc).symm, eligFrags_length doc, rfl, rfl⟩

lemma overwriteRows_id (tr : Nat → String → String) :
    ∀ (rows : List (List String)) (c : Nat),
      (∀ r ∈ rows, ∀ cell ∈ r, hasText cell = false) →
      overwriteRows tr c rows = rows ∧ eligRows rows = 0 := by
  intro rows
  induction rows with
  | nil => intro c _; exact ⟨rfl, rfl⟩
  | cons r rs ih =>
    intro c h
    have hr : ∀ cell ∈ r, hasText cell = false := h r (by simp)
    have h2 := ih (c + eligCount r) (fun q hq => h q (by simp [hq]))
    refine ⟨?_, ?_⟩
    · show overwriteList tr c r :: overwriteRows tr (c + eligCount r) rs = r :: rs
      rw [overwriteList_id tr r c hr, h2.1]
    · show eligCount r + eligRows rs = 0
      rw [eligCount_zero hr, h2.2]

lemma overwriteTables_id (tr : Nat → String → String) :
    ∀ (tbs : List (List (List String))) (c : Nat),
      (∀ tb ∈ tbs, ∀ r ∈ tb, ∀ cell ∈ r, hasText cell = false) →
      overwriteTables tr c tbs = tbs ∧ eligTables tbs = 0 := by
  intro tbs
  induction tbs with
  | nil => intro c _; exact ⟨rfl, rfl⟩
  | cons tb tbs2 ih =>
    intro c h
    have htb := overwriteRows_id tr tb c (h tb (by simp))
    have h2 := ih (c + eligRows tb) (fun q hq => h q (by simp [hq]))
    refine ⟨?_, ?_⟩
    · show overwriteRows tr c tb :: overwriteTables tr (c + eligRows tb) tbs2 =
        tb :: tbs2
      rw [htb.1, h2.1]
    · show eligRows tb + eligTables tbs2 = 0
      rw [htb.2, h2.2]

/-- C7: a document in which no paragraph and no table cell has non-whitespace
text is returned unchanged, with zero substitutions. -/
theorem blank_document_unchanged (doc : DocX) (src dest method : String)
    (key : Option String) (envs : Nat → Env)
    (hp : ∀ p ∈ doc.paragraphs, hasText p = false)
    (ht : ∀ tb ∈ doc.tables, ∀ r ∈ tb, ∀ cell ∈ r, hasText cell = false) :
    (translate_docx doc src dest method key envs).doc = doc ∧
    (translate_docx doc src dest method key envs).subs = 0 := by
  rw [translate_docx_eq]
  have h1 := overwriteList_id (fragTr src dest method key envs) doc.paragraphs 0 hp
  have h2 := overwriteTables_id (fragTr src dest method key envs) doc.tables
    (eligCount doc.paragraphs) ht
  refine ⟨?_, ?_⟩
  · show (⟨overwriteList (fragTr src dest method key envs) 0 doc.paragraphs,
      overwriteTables (fragTr src dest method key envs) (eligCount doc.paragraphs)
        doc.tables⟩ : DocX) = doc
    rw [h1, h2.1]
  · show totalItems doc = 0
    show eligCount doc.paragraphs + eligTables doc.tables = 0
    rw [eligCount_zero hp, h2.2]

/-- Witness for C7 on a document of blank paragraphs and blank cells. -/
theorem blank_document_unchanged_witness :
    (translate_docx ⟨["", "  "], [[[" "], [""]]]⟩ "en" "de" "Google Translate" none
      (fun _ => demoEnv)).doc = (⟨["", "  "], [[[" "], [""]]]⟩ : DocX) ∧
    (translate_docx ⟨["", "  "], [[[" "], [""]]]⟩ "en" "de" "Google Translate" none
      (fun _ => demoEnv)).subs = 0 :=
  blank_document_unchanged ⟨["", "  "], [[[" "], [""]]]⟩ "en" "de" "Google Translate"
    none (fun _ => demoEnv) (by decide) (by decide)

/-- C10: every progress fraction evaluated by translate_docx has a strictly
positive denominator total_items and a numerator current_item that never
exceeds it: there is no division by zero and the reported progress never
exceeds one. -/
theorem progress_in_bounds (doc : DocX) (src dest method : String)
    (key : Option String) (envs : Nat → Env) (c t : Nat)
    (h : (c, t) ∈ (translate_docx doc src dest method key envs).events) :
    0 < t ∧ c ≤ t := by
  rw [translate_docx_eq] at h
  obtain ⟨hy, hlt, hle⟩ := mem_progEvents (totalItems doc) 0 (totalItems doc) c t h
  omega

/-- Witness for C10 on a one-paragraph document: the single recorded progress
pair is in bounds. -/
theorem progress_in_bounds_witness :
    ((1, 1) ∈ (translate_docx ⟨["Hi"], []⟩ "en" "de" "Google Translate" none
      (fun _ => demoEnv)).events) ∧ (0 < 1 ∧ 1 ≤ 1) :=
  ⟨by decide,
   progress_in_bounds ⟨["Hi"], []⟩ "en" "de" "Google Translate" none
     (fun _ => demoEnv) 1 1 (by decide)⟩

/-- Counterexample to C5 as stated: for the 3001-character input bigA and a
status-200 response with empty content, the direct OpenAI variant does not
return the original input text; it returns the request text, which was
truncated to 3000 characters with a marker appended. -/
theorem openai_direct_empty_fallback_counterexample :
    (translate_with_openai_direct bigA "en" "de" "sk-test" ⟨200, "", ""⟩).outcome ≠
      Except.ok bigA := by
  have h4 : bigA.data.length = 3001 := by
    show (List.replicate 3001 'a').length = 3001
    exact List.length_replicate 3001 'a'
  have hgt : bigA.length > 3000 := by
    show bigA.data.length > 3000
    omega
  have htr : pyTruncate bigA = ⟨bigA.data.take 3000 ++ "...".data⟩ := by
    unfold pyTruncate
    rw [if_pos hgt]
  have h6 : ("...".data).length = 3 := rfl
  have h5 : (pyTruncate bigA).data.length = 3003 := by
    rw [htr]
    show (bigA.data.take 3000 ++ "...".data).length = 3003
    rw [List.length_append, List.length_take, h4, h6]
    omega
  have h1 : (translate_with_openai_direct bigA "en" "de" "sk-test"
      ⟨200, "", ""⟩).outcome = Except.ok (pyTruncate bigA) := by
    unfold translate_with_openai_direct
    rw [if_pos (show ("sk-".data.isPrefixOf (pyStrip "sk-test").data = true) from rfl)]
    show (⟨Except.ok (if (pyStrip "").data.isEmpty = true then pyTruncate bigA
      else pyStrip ""), 1⟩ : BackendCall).outcome = Except.ok (pyTruncate bigA)
    rw [if_pos (show ((pyStrip "").data.isEmpty = true) from rfl)]
  rw [h1]
  intro h
  have h2 : pyTruncate bigA = bigA := by injection h
  rw [h2] at h5
  omega

/-- C5 (amended): given a well-formed key, the direct OpenAI variant handles
the HTTP response it received as follows: on status 200 it returns the
stripped first choice content, falling back to the request text (the input
truncated to 3000 characters with a marker appended when longer than 3000,
the input itself otherwise) when that content is empty; on status 401 it
raises an authentication failure; on status 429 a rate-limit error; on any
other non-200 status a generic error containing the status code and the
response body. -/
theorem openai_direct_response_handling (text src dest key : String)
    (resp : HttpResponse)
    (hkey : "sk-".data.isPrefixOf (pyStrip key).data = true) :
    (resp.status = 200 → (pyStrip resp.content).data.isEmpty = false →
      (translate_with_openai_direct text src dest key resp).outcome =
        Except.ok (pyStrip resp.content)) ∧
    (resp.status = 200 → (pyStrip resp.content).data.isEmpty = true →
      (translate_with_openai_direct text src dest key resp).outcome =
        Except.ok (pyTruncate text)) ∧
    (resp.status = 401 →
      ∃ m, (translate_with_openai_direct text src dest key resp).outcome =
        Except.error m ∧
        hasSub "Invalid API key or authentication failed".data m.data = true) ∧
    (resp.status = 429 →
      ∃ m, (translate_with_openai_direct text src dest key resp).outcome =
        Except.error m ∧ hasSub "Rate limit exceeded".data m.data = true) ∧
    (resp.status ≠ 200 → resp.status ≠ 401 → resp.status ≠ 429 →
      ∃ m, (translate_with_openai_direct text src dest key resp).outcome =
        Except.error m ∧ hasSub (toString resp.status).data m.data = true ∧
        hasSub resp.body.data m.data = true) := by
  unfold translate_with_openai_direct
  rw [if_pos hkey]
  refine ⟨?_, ?_, ?_, ?_, ?_⟩
  · intro hs hc
    rw [if_pos hs]
    simp [hc]
  · intro hs hc
    rw [if_pos hs]
    simp [hc]
  · intro hs
    rw [if_neg (by omega), if_pos hs]
    refine ⟨wrapDirect "Invalid API key or authentication failed", rfl, ?_⟩
    apply hasSub_of_infix
    exact ⟨"Direct API translation error: ".data, [], by simp [wrapDirect, String.data_append]⟩
  · intro hs
    rw [if_neg (by omega), if_neg (by omega), if_pos hs]
    refine ⟨wrapDirect "Rate limit exceeded. Please wait a moment and try again.", rfl, ?_⟩
    apply hasSub_of_infix
    refine ⟨"Direct API translation error: ".data,
      ". Please wait a moment and try again.".data, ?_⟩
    simp [wrapDirect, String.data_append]
  · intro h200 h401 h429
    rw [if_neg h200, if_neg h401, if_neg h429]
    refine ⟨wrapDirect ("API request failed with status " ++ toString resp.status ++
      ": " ++ resp.body), rfl, ?_, ?_⟩
    · apply hasSub_of_infix
      refine ⟨"Direct API translation error: API request failed with status ".data,
        (": " ++ resp.body).data, ?_⟩
      simp [wrapDirect, String.data_append]
    · apply hasSub_of_infix
      refine ⟨("Direct API translation error: API request failed with status " ++
        toString resp.status ++ ": ").data, [], ?_⟩
      simp [wrapDirect, String.data_append]

/-- Witness for the amended C5 on a status-401 response. -/
theorem openai_direct_response_handling_witness :
    ∃ m, (translate_with_openai_direct "Hello" "en" "de" "sk-abc"
        ⟨401, "", "body"⟩).outcome = Except.error m ∧
      hasSub "Invalid API key or authentication failed".data m.data = true :=
  (openai_direct_response_handling "Hello" "en" "de" "sk-abc" ⟨401, "", "body"⟩
    (by decide)).2.2.1 rfl

/-- C8: UserTracker.can_translate is false for a user whose daily count has
reached the daily limit of 5, but the Translate button flow invokes the
document walker anyway: the flow never consults the tracker, so with the
count at the limit the walker still runs. -/
theorem daily_limit_not_enforced_by_caller :
    can_translate 5 5 = false ∧
    translateButtonFlow (some ⟨["Hello"], []⟩) "en" "de" "Google Translate" none true
      (fun _ => demoEnv) =
      some (translate_docx ⟨["Hello"], []⟩ "en" "de" "Google Translate" none
        (fun _ => demoEnv)) := by
  exact ⟨rfl, rfl⟩
